import Mathlib

/-!
# Verification of the gatolab module coordinator

A shallow embedding of `internal/coordinator` (package `coordinator`) from the
gatolab repository, together with the `internal/module` data types it routes
over.  The coordinator owns an ordered list of registered modules, per-key and
per-dial ownership maps, a failed-module set, and an overlay-transition flag;
its event callbacks and render loop are embedded as pure functions that return
the list of calls made to modules and to the device, plus the resulting error
value where the Go function returns one.

Modules are identified by an abstract handle (`ModuleId`, standing for Go's
interface-value identity used as a map key), and a module's externally
observable behavior at a given instant (overlay status, rendered images,
handler results) is a `Behavior` record supplied to each operation.
-/

namespace Gatolab

/-- One of the 8 fixed physical key identifiers (`module.Key1` .. `module.Key8`). -/
inductive KeyID where
  | key1 | key2 | key3 | key4 | key5 | key6 | key7 | key8
deriving DecidableEq, Repr

/-- The list of all 8 keys, in the order the coordinator enumerates them
(`allKeys` in `setupEventHandlers` and `clearAllKeys`). -/
def allKeys : List KeyID :=
  [.key1, .key2, .key3, .key4, .key5, .key6, .key7, .key8]

/-- One of the 4 fixed rotary-dial identifiers (`module.Dial1` .. `module.Dial4`). -/
inductive DialID where
  | dial1 | dial2 | dial3 | dial4
deriving DecidableEq, Repr

/-- A point in strip pixel coordinates (`image.Point`). -/
structure Point where
  x : Int
  y : Int
deriving DecidableEq, Repr

/-- An axis-aligned rectangle (`image.Rectangle`), given by min and max corners. -/
structure Rect where
  minX : Int
  minY : Int
  maxX : Int
  maxY : Int
deriving DecidableEq, Repr

/-- Go's `image.Rectangle.Empty`: a rectangle with no positive area. -/
def Rect.isEmpty (r : Rect) : Bool :=
  r.minX ≥ r.maxX || r.minY ≥ r.maxY

/-- The zero rectangle (Go's zero value for `image.Rectangle`). -/
def Rect.zero : Rect := ⟨0, 0, 0, 0⟩

/-- Images pushed to the device.  `blank r` is a freshly allocated
`image.NewRGBA(r)` (all-zero pixels, as used by `clearAllKeys` and as the
strip composite base); `pix` is an opaque module-produced image; `over d s`
is the result of `draw.Draw(d, .., s, .., draw.Over)` compositing. -/
inductive Img where
  | blank (r : Rect)
  | pix (id : Nat)
  | over (dst src : Img)
deriving DecidableEq, Repr

/-- Abstract handle for a registered module (Go uses interface-value identity
as the key of its `moduleResources` / `failedModules` maps). -/
abbrev ModuleId := Nat

/-- Abstract Go `error` value; `Option Err` with `none` for `nil`. -/
abbrev Err := Nat

/-- Hold duration reported by the device's `WaitForRelease` (Go `time.Duration`). -/
abbrev Dur := Nat

/-- `module.KeyEvent`: press flag and (for release events) the hold duration.
Go's zero value for the duration field is 0. -/
structure KeyEvent where
  pressed : Bool
  duration : Dur
deriving DecidableEq, Repr

/-- The tag of a `module.DialEvent` (`module.DialRotate` / `DialPress` / `DialRelease`). -/
inductive DialEventType where
  | rotate | press | release
deriving DecidableEq, Repr

/-- `module.DialEvent`: tag, signed rotation delta, and hold duration
(zero-valued fields when not applicable, as in the Go struct literals). -/
structure DialEvent where
  type : DialEventType
  delta : Int
  duration : Dur
deriving DecidableEq, Repr

/-- The tag of a `module.TouchStripEvent`. -/
inductive TouchType where
  | tap | longTap | swipe
deriving DecidableEq, Repr

/-- `module.TouchStripEvent`: tag plus a tap point or swipe origin/destination
(zero-valued when not applicable). -/
structure TouchStripEvent where
  type : TouchType
  point : Point
  origin : Point
  dest : Point
deriving DecidableEq, Repr

/-- Modelled from the spec: `module.TouchStripEventFromTap` (the event-model
file of `internal/module` is not among the provided sources).  Per the spec's
event model, a tap or long-tap event carries the touch point in strip pixel
coordinates; the long flag distinguishes tap from long-tap. -/
def touchStripEventFromTap (long : Bool) (p : Point) : TouchStripEvent :=
  ⟨if long then .longTap else .tap, p, ⟨0, 0⟩, ⟨0, 0⟩⟩

/-- Modelled from the spec: `module.TouchStripEventFromSwipe` (the event-model
file of `internal/module` is not among the provided sources).  Per the spec's
event model, a swipe event carries origin and destination points. -/
def touchStripEventFromSwipe (o d : Point) : TouchStripEvent :=
  ⟨.swipe, ⟨0, 0⟩, o, d⟩

/-- `module.Resources`: the key set, strip rectangle and dial set granted to
one module at registration. -/
structure Resources where
  keys : List KeyID
  stripRect : Rect
  dials : List DialID
deriving DecidableEq, Repr

/-- Modelled from the spec: `Resources.HasStrip` (the resources file of
`internal/module` is not among the provided sources; only its callers are).
Per the spec, the strip rectangle is "possibly empty/zero-area, meaning no
strip access", and strip routing targets modules "that declared a non-empty
strip grant": a module has strip access iff its granted rectangle is
non-empty. -/
def Resources.hasStrip (r : Resources) : Bool :=
  !r.stripRect.isEmpty

/-- The Go zero value of `module.Resources` (returned by a map lookup miss). -/
def Resources.zero : Resources := ⟨[], Rect.zero, []⟩

/-- The externally observable behavior of one module at a given instant:
whether it implements `module.OverlayProvider` and reports an active overlay,
the images returned by its render methods (`none` for a missing map entry or
a Go `nil` image), the error results of its handlers, and the results of its
`Init` and `Stop` calls. -/
structure Behavior where
  providesOverlay : Bool
  overlayActive : Bool
  renderKeys : KeyID → Option Img
  renderOverlayKeys : KeyID → Option Img
  renderStrip : Option Img
  renderOverlayStrip : Option Img
  handleKey : KeyID → KeyEvent → Option Err
  handleOverlayKey : KeyID → KeyEvent → Option Err
  handleDial : DialID → DialEvent → Option Err
  handleStripTouch : TouchStripEvent → Option Err
  handleOverlayStripTouch : TouchStripEvent → Option Err
  initRes : Option Err
  stopRes : Option Err

/-- A module behavior that is inert in every respect: no overlay, no images,
no handler errors.  Used as the base for concrete test setups. -/
def inertBehavior : Behavior where
  providesOverlay := false
  overlayActive := false
  renderKeys := fun _ => none
  renderOverlayKeys := fun _ => none
  renderStrip := none
  renderOverlayStrip := none
  handleKey := fun _ _ => none
  handleOverlayKey := fun _ _ => none
  handleDial := fun _ _ => none
  handleStripTouch := fun _ => none
  handleOverlayStripTouch := fun _ => none
  initRes := none
  stopRes := none

/-- One call made by the coordinator, either to a module's contract method or
to the device.  Traces of these calls are the observable effect of each
coordinator operation. -/
inductive Call where
  | initCall (m : ModuleId)
  | stopCall (m : ModuleId)
  | renderKeysQuery (m : ModuleId)
  | renderOverlayKeysQuery (m : ModuleId)
  | renderStripQuery (m : ModuleId)
  | renderOverlayStripQuery (m : ModuleId)
  | handleKey (m : ModuleId) (k : KeyID) (e : KeyEvent)
  | handleOverlayKey (m : ModuleId) (k : KeyID) (e : KeyEvent)
  | handleDial (m : ModuleId) (d : DialID) (e : DialEvent)
  | handleStripTouch (m : ModuleId) (e : TouchStripEvent)
  | handleOverlayStripTouch (m : ModuleId) (e : TouchStripEvent)
  | setKeyImage (k : KeyID) (img : Img)
  | setTouchStripImage (img : Img)
  | waitKeyRelease (k : KeyID)
  | waitDialRelease (d : DialID)
  | cancelCtx
  | wgWait
  | wgDone
deriving DecidableEq, Repr

/-- The device capabilities the embedded coordinator operations consult:
`GetKeyImageRectangle` (with `none` for an error result). -/
structure Device where
  keyImageRect : Option Rect
deriving DecidableEq, Repr

/-- The `coordinator.Coordinator` state: registration-ordered module list,
per-module resource map, key/dial ownership maps, failed-module set, the
full strip rectangle captured at `Start`, and the overlay-transition flag. -/
structure Coordinator where
  modules : List ModuleId
  moduleResources : ModuleId → Resources
  keyOwners : KeyID → Option ModuleId
  dialOwners : DialID → Option ModuleId
  failedModules : ModuleId → Bool
  stripRect : Rect
  overlayWasActive : Bool

/-- `coordinator.New`: the empty coordinator (all maps empty, flag clear). -/
def Coordinator.new : Coordinator where
  modules := []
  moduleResources := fun _ => Resources.zero
  keyOwners := fun _ => none
  dialOwners := fun _ => none
  failedModules := fun _ => false
  stripRect := Rect.zero
  overlayWasActive := false

/-- Point update of an ownership map (one iteration of the Go `for` loops in
`RegisterModule` that write `c.keyOwners[key] = m` / `c.dialOwners[dial] = m`). -/
def updOwner {α : Type} [DecidableEq α] (f : α → Option ModuleId) (a : α)
    (m : ModuleId) : α → Option ModuleId :=
  fun a' => if a' = a then some m else f a'

/-- `Coordinator.RegisterModule`: store the grant, fold the grant's key and
dial lists into the ownership maps (later writes overwrite earlier ones),
append the module to the registration-ordered list, and return `nil`. -/
def Coordinator.registerModule (c : Coordinator) (m : ModuleId)
    (res : Resources) : Coordinator × Option Err :=
  ({ c with
      moduleResources := fun m' => if m' = m then res else c.moduleResources m'
      keyOwners := res.keys.foldl (fun f k => updOwner f k m) c.keyOwners
      dialOwners := res.dials.foldl (fun f d => updOwner f d m) c.dialOwners
      modules := c.modules ++ [m] },
   none)

/-- The failed-module set produced by `Start`'s init loop: walk the modules in
registration order and mark each whose `Init` returned an error. -/
def initFailures (beh : ModuleId → Behavior) (f0 : ModuleId → Bool) :
    List ModuleId → (ModuleId → Bool)
  | [] => f0
  | m :: rest =>
      initFailures beh
        (if ((beh m).initRes).isSome then
          (fun m' => if m' = m then true else f0 m') else f0) rest

/-- The module-initialization phase of `Coordinator.Start` (lines 93-100):
call `Init` on every registered module in registration order; a module whose
`Init` errors is marked failed and skipped thereafter, without aborting the
loop. -/
def Coordinator.runInit (c : Coordinator) (beh : ModuleId → Behavior) :
    Coordinator × List Call :=
  ({ c with failedModules := initFailures beh c.failedModules c.modules },
   c.modules.map Call.initCall)

/-- `Coordinator.getActiveOverlay`: scan the modules in registration order and
return the first non-failed one that implements `OverlayProvider` and reports
an active overlay. -/
def Coordinator.getActiveOverlay (c : Coordinator) (beh : ModuleId → Behavior) :
    Option ModuleId :=
  c.modules.find? fun m =>
    !c.failedModules m && (beh m).providesOverlay && (beh m).overlayActive

/-- The per-key callback installed by `setupEventHandlers` (lines 170-201),
invoked on a hardware key press.  `dur` is the hold duration the device's
`WaitForRelease` reports for this press.  Overlay-first: while an overlay is
active both events go to `HandleOverlayKey`; otherwise the key's owner (if
any and not failed) gets press, then — if the press handler returned no
error — the blocking wait and the release event. -/
def Coordinator.keyPressCallback (c : Coordinator) (beh : ModuleId → Behavior)
    (k : KeyID) (dur : Dur) : List Call × Option Err :=
  match c.getActiveOverlay beh with
  | some ov =>
      match (beh ov).handleOverlayKey k ⟨true, 0⟩ with
      | some e => ([Call.handleOverlayKey ov k ⟨true, 0⟩], some e)
      | none =>
          ([Call.handleOverlayKey ov k ⟨true, 0⟩, Call.waitKeyRelease k,
            Call.handleOverlayKey ov k ⟨false, dur⟩],
           (beh ov).handleOverlayKey k ⟨false, dur⟩)
  | none =>
      match c.keyOwners k with
      | none => ([], none)
      | some owner =>
          if c.failedModules owner then ([], none)
          else
            match (beh owner).handleKey k ⟨true, 0⟩ with
            | some e => ([Call.handleKey owner k ⟨true, 0⟩], some e)
            | none =>
                ([Call.handleKey owner k ⟨true, 0⟩, Call.waitKeyRelease k,
                  Call.handleKey owner k ⟨false, dur⟩],
                 (beh owner).handleKey k ⟨false, dur⟩)

/-- The per-dial rotate callback (lines 204-217): dispatch a `DialRotate`
event to the dial's owner unless the owner is failed.  No handler is
installed for unowned dials, so those events are inert. -/
def Coordinator.dialRotateCallback (c : Coordinator) (beh : ModuleId → Behavior)
    (d : DialID) (delta : Int) : List Call × Option Err :=
  match c.dialOwners d with
  | none => ([], none)
  | some m =>
      if c.failedModules m then ([], none)
      else
        ([Call.handleDial m d ⟨.rotate, delta, 0⟩],
         (beh m).handleDial d ⟨.rotate, delta, 0⟩)

/-- The per-dial switch (press) callback (lines 220-238): dispatch
`DialPress` to the owner unless failed, then — if the press handler returned
no error — block for release and dispatch `DialRelease` with the reported
hold duration. -/
def Coordinator.dialSwitchCallback (c : Coordinator) (beh : ModuleId → Behavior)
    (d : DialID) (dur : Dur) : List Call × Option Err :=
  match c.dialOwners d with
  | none => ([], none)
  | some m =>
      if c.failedModules m then ([], none)
      else
        match (beh m).handleDial d ⟨.press, 0, 0⟩ with
        | some e => ([Call.handleDial m d ⟨.press, 0, 0⟩], some e)
        | none =>
            ([Call.handleDial m d ⟨.press, 0, 0⟩, Call.waitDialRelease d,
              Call.handleDial m d ⟨.release, 0, dur⟩],
             (beh m).handleDial d ⟨.release, 0, dur⟩)

/-- The module `routeStripEvent`'s loop selects: the first module in
registration order that is not failed and whose grant has a strip region. -/
def stripTarget (c : Coordinator) : Option ModuleId :=
  c.modules.find? fun m =>
    !c.failedModules m && (c.moduleResources m).hasStrip

/-- `Coordinator.routeStripEvent` (lines 263-276): deliver the event to the
first non-failed module in registration order whose grant has a strip
region; if none exists, drop the event and return `nil`. -/
def Coordinator.routeStripEvent (c : Coordinator) (beh : ModuleId → Behavior)
    (e : TouchStripEvent) : List Call × Option Err :=
  match stripTarget c with
  | some m => ([Call.handleStripTouch m e], (beh m).handleStripTouch e)
  | none => ([], none)

/-- The touch-strip tap callback (lines 242-249): build the tap event,
route it to the active overlay's `HandleOverlayStripTouch` if one exists,
else fall back to `routeStripEvent`. -/
def Coordinator.stripTapCallback (c : Coordinator) (beh : ModuleId → Behavior)
    (long : Bool) (p : Point) : List Call × Option Err :=
  let e := touchStripEventFromTap long p
  match c.getActiveOverlay beh with
  | some ov => ([Call.handleOverlayStripTouch ov e],
                (beh ov).handleOverlayStripTouch e)
  | none => c.routeStripEvent beh e

/-- The touch-strip swipe callback (lines 251-258): same overlay-first
precedence as the tap callback, with a swipe event. -/
def Coordinator.stripSwipeCallback (c : Coordinator) (beh : ModuleId → Behavior)
    (o d : Point) : List Call × Option Err :=
  let e := touchStripEventFromSwipe o d
  match c.getActiveOverlay beh with
  | some ov => ([Call.handleOverlayStripTouch ov e],
                (beh ov).handleOverlayStripTouch e)
  | none => c.routeStripEvent beh e

/-- The device writes produced from a key-image map: one `SetKeyImage` per
key whose entry is present and non-nil (the `for keyID, img := range` loops
at lines 312-316 and 334-338). -/
def keyWrites (g : KeyID → Option Img) : List Call :=
  allKeys.filterMap fun k => (g k).map (Call.setKeyImage k ·)

/-- `Coordinator.clearAllKeys` (lines 396-412): push a fresh blank image to
all 8 keys; if the device's key-geometry query fails, do nothing. -/
def Coordinator.clearAllKeys (c : Coordinator) (dev : Device) : List Call :=
  match dev.keyImageRect with
  | none => []
  | some r => allKeys.map fun k => Call.setKeyImage k (Img.blank r)

/-- The normal (non-overlay) key-render pass (lines 329-339): for each
non-failed module in registration order, query `RenderKeys` and push each
present, non-nil image. -/
def normalKeyRender (c : Coordinator) (beh : ModuleId → Behavior) :
    List ModuleId → List Call
  | [] => []
  | m :: rest =>
      (if c.failedModules m then []
       else Call.renderKeysQuery m :: keyWrites (beh m).renderKeys)
        ++ normalKeyRender c beh rest

/-- `Coordinator.renderKeys` (lines 301-340): overlay-first.  If a non-failed
module's overlay is active, push its overlay key images and set the
transition flag.  Otherwise, if the flag was set (overlay just dismissed),
clear all 8 keys first and reset the flag, then do the normal render pass. -/
def Coordinator.renderKeys (c : Coordinator) (dev : Device)
    (beh : ModuleId → Behavior) : Coordinator × List Call :=
  match c.getActiveOverlay beh with
  | some ov =>
      ({ c with overlayWasActive := true },
       Call.renderOverlayKeysQuery ov :: keyWrites (beh ov).renderOverlayKeys)
  | none =>
      if c.overlayWasActive then
        ({ c with overlayWasActive := false },
         c.clearAllKeys dev ++ normalKeyRender c beh c.modules)
      else
        (c, normalKeyRender c beh c.modules)

/-- The strip compositing pass of `renderStrip` (lines 364-384): walk the
modules in registration order, skipping failed modules and modules without a
strip grant; query `RenderStrip` on the rest and draw each non-nil image over
the accumulating composite. -/
def stripComposite (c : Coordinator) (beh : ModuleId → Behavior) :
    List ModuleId → Img → Img × List Call
  | [], acc => (acc, [])
  | m :: rest, acc =>
      if c.failedModules m then stripComposite c beh rest acc
      else if !(c.moduleResources m).hasStrip then stripComposite c beh rest acc
      else
        match (beh m).renderStrip with
        | none =>
            let r := stripComposite c beh rest acc
            (r.1, Call.renderStripQuery m :: r.2)
        | some img =>
            let r := stripComposite c beh rest (Img.over acc img)
            (r.1, Call.renderStripQuery m :: r.2)

/-- `Coordinator.renderStrip` (lines 343-387): skip entirely when the strip
rectangle is empty; otherwise overlay-first (push the overlay's strip image
if non-nil and stop), else composite every non-failed strip-granted module's
image over a blank canvas and push the single composite. -/
def Coordinator.renderStrip (c : Coordinator) (beh : ModuleId → Behavior) :
    List Call :=
  if c.stripRect.isEmpty then []
  else
    match c.getActiveOverlay beh with
    | some ov =>
        Call.renderOverlayStripQuery ov ::
          (match (beh ov).renderOverlayStrip with
           | some img => [Call.setTouchStripImage img]
           | none => [])
    | none =>
        let r := stripComposite c beh c.modules (Img.blank c.stripRect)
        r.2 ++ [Call.setTouchStripImage r.1]

/-- One render tick (`renderLoop` body, lines 286-296): render keys, then the
strip. -/
def Coordinator.renderTick (c : Coordinator) (dev : Device)
    (beh : ModuleId → Behavior) : Coordinator × List Call :=
  let r := c.renderKeys dev beh
  (r.1, r.2 ++ r.1.renderStrip beh)

/-- `Coordinator.renderLoop` (lines 279-298) over a finite sequence of
per-tick module behaviors (the initial render plus one entry per ticker
firing until cancellation); the deferred `wg.Done()` is the final action at
exit. -/
def Coordinator.renderLoop (c : Coordinator) (dev : Device)
    (ticks : List (ModuleId → Behavior)) : Coordinator × List Call :=
  let r := ticks.foldl
    (fun (p : Coordinator × List Call) beh =>
      let q := p.1.renderTick dev beh
      (q.1, p.2 ++ q.2))
    (c, [])
  (r.1, r.2 ++ [Call.wgDone])

/-- `Coordinator.Stop` (lines 130-142): cancel the run context, call `Stop`
on every registered module in registration order (return values discarded,
failed modules included), wait on the render loop's wait group, and return
`nil`. -/
def Coordinator.stop (c : Coordinator) (beh : ModuleId → Behavior) :
    List Call × Option Err :=
  (Call.cancelCtx :: (c.modules.map Call.stopCall ++ [Call.wgWait]), none)

/-- The device's per-key image state after replaying a call trace: each
`SetKeyImage` overwrites that key's image, all other calls leave it alone. -/
def applyCalls (st : KeyID → Option Img) : List Call → (KeyID → Option Img)
  | [] => st
  | Call.setKeyImage kk img :: rest =>
      applyCalls (fun k' => if k' = kk then some img else st k') rest
  | _ :: rest => applyCalls st rest

/-! ## Helper lemmas -/

lemma mem_allKeys (k : KeyID) : k ∈ allKeys := by
  cases k <;> simp [allKeys]

lemma foldl_updOwner_lookup {α : Type} [DecidableEq α] (ks : List α)
    (f : α → Option ModuleId) (m : ModuleId) (a : α) :
    (ks.foldl (fun g k => updOwner g k m) f) a
      = if a ∈ ks then some m else f a := by
  induction ks generalizing f with
  | nil => simp
  | cons k rest ih =>
      simp only [List.foldl_cons, ih, List.mem_cons]
      by_cases hka : a ∈ rest
      · simp [hka]
      · by_cases hk : a = k
        · simp [hk, hka, updOwner]
        · simp [hk, hka, updOwner]

lemma getActiveOverlay_not_failed {c : Coordinator} {beh : ModuleId → Behavior}
    {ov : ModuleId} (h : c.getActiveOverlay beh = some ov) :
    c.failedModules ov = false := by
  have hp := List.find?_some h
  simp only [Bool.and_eq_true, Bool.not_eq_true'] at hp
  exact hp.1.1

lemma stripTarget_spec {c : Coordinator} {m : ModuleId}
    (h : stripTarget c = some m) :
    m ∈ c.modules ∧ c.failedModules m = false
      ∧ (c.moduleResources m).hasStrip = true := by
  have hp := List.find?_some h
  have hm := List.mem_of_find?_eq_some h
  simp only [Bool.and_eq_true, Bool.not_eq_true'] at hp
  exact ⟨hm, hp.1, hp.2⟩

lemma mem_keyWrites {g : KeyID → Option Img} {k : KeyID} {img : Img} :
    Call.setKeyImage k img ∈ keyWrites g ↔ g k = some img := by
  simp only [keyWrites, List.mem_filterMap]
  constructor
  · rintro ⟨k', _, heq⟩
    rw [Option.map_eq_some'] at heq
    obtain ⟨img', hg, heq⟩ := heq
    cases heq
    exact hg
  · intro h
    exact ⟨k, mem_allKeys k, by simp [h]⟩

lemma keyWrites_shape {g : KeyID → Option Img} {x : Call}
    (hx : x ∈ keyWrites g) : ∃ k img, x = Call.setKeyImage k img := by
  simp only [keyWrites, List.mem_filterMap] at hx
  obtain ⟨k, _, heq⟩ := hx
  rw [Option.map_eq_some'] at heq
  obtain ⟨img, _, heq⟩ := heq
  exact ⟨k, img, heq.symm⟩

lemma normalKeyRender_cons (c : Coordinator) (beh : ModuleId → Behavior)
    (m : ModuleId) (rest : List ModuleId) :
    normalKeyRender c beh (m :: rest)
      = (if c.failedModules m then []
         else Call.renderKeysQuery m :: keyWrites (beh m).renderKeys)
        ++ normalKeyRender c beh rest := rfl

lemma renderKeysQuery_mem_normalKeyRender (c : Coordinator)
    (beh : ModuleId → Behavior) (m : ModuleId) (ms : List ModuleId) :
    Call.renderKeysQuery m ∈ normalKeyRender c beh ms
      ↔ m ∈ ms ∧ c.failedModules m = false := by
  induction ms with
  | nil => simp [normalKeyRender]
  | cons m' rest ih =>
      rw [normalKeyRender_cons]
      by_cases hfm : c.failedModules m' = true
      · rw [if_pos hfm, List.nil_append, ih]
        constructor
        · rintro ⟨h1, h2⟩
          exact ⟨List.mem_cons_of_mem _ h1, h2⟩
        · rintro ⟨h1, h2⟩
          rcases List.mem_cons.1 h1 with h1 | h1
          · subst h1
            rw [hfm] at h2
            cases h2
          · exact ⟨h1, h2⟩
      · rw [if_neg hfm]
        rw [Bool.not_eq_true] at hfm
        simp only [List.cons_append, List.mem_cons, List.mem_append, ih]
        constructor
        · rintro (h | h | ⟨h1, h2⟩)
          · injection h with h
            subst h
            exact ⟨Or.inl rfl, hfm⟩
          · obtain ⟨k, img, hk⟩ := keyWrites_shape h
            exact Call.noConfusion hk
          · exact ⟨Or.inr h1, h2⟩
        · rintro ⟨h1 | h1, h2⟩
          · subst h1
            exact Or.inl rfl
          · exact Or.inr (Or.inr ⟨h1, h2⟩)

lemma setKeyImage_mem_normalKeyRender {c : Coordinator}
    {beh : ModuleId → Behavior} {k : KeyID} {img : Img} {ms : List ModuleId}
    (h : Call.setKeyImage k img ∈ normalKeyRender c beh ms) :
    ∃ m, m ∈ ms ∧ c.failedModules m = false
      ∧ (beh m).renderKeys k = some img := by
  induction ms with
  | nil => simp [normalKeyRender] at h
  | cons m' rest ih =>
      rw [normalKeyRender_cons] at h
      by_cases hfm : c.failedModules m' = true
      · rw [if_pos hfm, List.nil_append] at h
        obtain ⟨m, hm, h2, h3⟩ := ih h
        exact ⟨m, List.mem_cons_of_mem _ hm, h2, h3⟩
      · rw [if_neg hfm] at h
        rw [Bool.not_eq_true] at hfm
        simp only [List.cons_append, List.mem_cons, List.mem_append] at h
        rcases h with h | h | h
        · exact Call.noConfusion h
        · exact ⟨m', List.mem_cons_self m' rest, hfm, mem_keyWrites.1 h⟩
        · obtain ⟨m, hm, h2, h3⟩ := ih h
          exact ⟨m, List.mem_cons_of_mem _ hm, h2, h3⟩

lemma stripComposite_cons (c : Coordinator) (beh : ModuleId → Behavior)
    (m : ModuleId) (rest : List ModuleId) (acc : Img) :
    stripComposite c beh (m :: rest) acc
      = if c.failedModules m then stripComposite c beh rest acc
        else if !(c.moduleResources m).hasStrip then stripComposite c beh rest acc
        else
          match (beh m).renderStrip with
          | none =>
              let r := stripComposite c beh rest acc
              (r.1, Call.renderStripQuery m :: r.2)
          | some img =>
              let r := stripComposite c beh rest (Img.over acc img)
              (r.1, Call.renderStripQuery m :: r.2) := rfl

lemma renderStripQuery_not_mem_stripComposite (c : Coordinator)
    (beh : ModuleId → Behavior) (f : ModuleId)
    (hf : c.failedModules f = true) :
    ∀ (ms : List ModuleId) (acc : Img),
      Call.renderStripQuery f ∉ (stripComposite c beh ms acc).2 := by
  intro ms
  induction ms with
  | nil =>
      intro acc
      simp [stripComposite]
  | cons m rest ih =>
      intro acc
      rw [stripComposite_cons]
      by_cases hfm : c.failedModules m = true
      · rw [if_pos hfm]
        exact ih acc
      · rw [if_neg hfm]
        by_cases hs : (c.moduleResources m).hasStrip = true
        · rw [if_neg (by simp [hs])]
          cases hr : (beh m).renderStrip with
          | none =>
              simp only [hr, List.mem_cons]
              rintro (h | h)
              · injection h with h
                subst h
                exact hfm hf
              · exact ih acc h
          | some img =>
              simp only [hr, List.mem_cons]
              rintro (h | h)
              · injection h with h
                subst h
                exact hfm hf
              · exact ih (Img.over acc img) h
        · rw [Bool.not_eq_true] at hs
          rw [if_pos (by simp [hs])]
          exact ih acc

lemma initFailures_spec (beh : ModuleId → Behavior) (ms : List ModuleId) :
    ∀ (f0 : ModuleId → Bool) (m : ModuleId),
    initFailures beh f0 ms m = true
      ↔ (m ∈ ms ∧ ((beh m).initRes).isSome = true) ∨ f0 m = true := by
  induction ms with
  | nil =>
      intro f0 m
      simp [initFailures]
  | cons m' rest ih =>
      intro f0 m
      rw [show initFailures beh f0 (m' :: rest)
          = initFailures beh
              (if ((beh m').initRes).isSome then
                (fun mm => if mm = m' then true else f0 mm) else f0) rest
          from rfl]
      rw [ih]
      by_cases hs : ((beh m').initRes).isSome = true
      · rw [if_pos hs]
        by_cases hmm : m = m'
        · subst hmm
          simp [hs]
        · simp only [if_neg hmm, List.mem_cons]
          constructor
          · rintro (⟨h1, h2⟩ | h)
            · exact Or.inl ⟨Or.inr h1, h2⟩
            · exact Or.inr h
          · rintro (⟨h1 | h1, h2⟩ | h)
            · exact absurd h1 hmm
            · exact Or.inl ⟨h1, h2⟩
            · exact Or.inr h
      · rw [if_neg hs]
        simp only [List.mem_cons]
        constructor
        · rintro (⟨h1, h2⟩ | h)
          · exact Or.inl ⟨Or.inr h1, h2⟩
          · exact Or.inr h
        · rintro (⟨h1 | h1, h2⟩ | h)
          · subst h1
            exact absurd h2 hs
          · exact Or.inl ⟨h1, h2⟩
          · exact Or.inr h

lemma applyCalls_no_write (calls : List Call) (st : KeyID → Option Img)
    (k : KeyID) (h : ∀ img, Call.setKeyImage k img ∉ calls) :
    applyCalls st calls k = st k := by
  induction calls generalizing st with
  | nil => rfl
  | cons x rest ih =>
      cases x with
      | setKeyImage kk img =>
          have hkk : k ≠ kk := by
            intro he
            exact h img (by rw [he]; exact List.mem_cons_self _ _)
          rw [show applyCalls st (Call.setKeyImage kk img :: rest)
              = applyCalls (fun k' => if k' = kk then some img else st k') rest
              from rfl]
          rw [ih _ (fun i hi => h i (List.mem_cons_of_mem _ hi))]
          simp [hkk]
      | initCall m => exact (ih _ (fun i hi => h i (List.mem_cons_of_mem _ hi)))
      | stopCall m => exact (ih _ (fun i hi => h i (List.mem_cons_of_mem _ hi)))
      | renderKeysQuery m => exact (ih _ (fun i hi => h i (List.mem_cons_of_mem _ hi)))
      | renderOverlayKeysQuery m => exact (ih _ (fun i hi => h i (List.mem_cons_of_mem _ hi)))
      | renderStripQuery m => exact (ih _ (fun i hi => h i (List.mem_cons_of_mem _ hi)))
      | renderOverlayStripQuery m => exact (ih _ (fun i hi => h i (List.mem_cons_of_mem _ hi)))
      | handleKey m kk e => exact (ih _ (fun i hi => h i (List.mem_cons_of_mem _ hi)))
      | handleOverlayKey m kk e => exact (ih _ (fun i hi => h i (List.mem_cons_of_mem _ hi)))
      | handleDial m d e => exact (ih _ (fun i hi => h i (List.mem_cons_of_mem _ hi)))
      | handleStripTouch m e => exact (ih _ (fun i hi => h i (List.mem_cons_of_mem _ hi)))
      | handleOverlayStripTouch m e => exact (ih _ (fun i hi => h i (List.mem_cons_of_mem _ hi)))
      | setTouchStripImage i => exact (ih _ (fun i hi => h i (List.mem_cons_of_mem _ hi)))
      | waitKeyRelease kk => exact (ih _ (fun i hi => h i (List.mem_cons_of_mem _ hi)))
      | waitDialRelease d => exact (ih _ (fun i hi => h i (List.mem_cons_of_mem _ hi)))
      | cancelCtx => exact (ih _ (fun i hi => h i (List.mem_cons_of_mem _ hi)))
      | wgWait => exact (ih _ (fun i hi => h i (List.mem_cons_of_mem _ hi)))
      | wgDone => exact (ih _ (fun i hi => h i (List.mem_cons_of_mem _ hi)))

/-! ## Branch equations for the event callbacks and render passes -/

section BranchEquations

variable (c : Coordinator) (beh : ModuleId → Behavior)

lemma kpc_overlay_err {ov : ModuleId} {k : KeyID} {dur : Dur} {e : Err}
    (hov : c.getActiveOverlay beh = some ov)
    (hp : (beh ov).handleOverlayKey k ⟨true, 0⟩ = some e) :
    c.keyPressCallback beh k dur
      = ([Call.handleOverlayKey ov k ⟨true, 0⟩], some e) := by
  unfold Coordinator.keyPressCallback
  simp [hov, hp]

lemma kpc_overlay_ok {ov : ModuleId} {k : KeyID} {dur : Dur}
    (hov : c.getActiveOverlay beh = some ov)
    (hp : (beh ov).handleOverlayKey k ⟨true, 0⟩ = none) :
    c.keyPressCallback beh k dur
      = ([Call.handleOverlayKey ov k ⟨true, 0⟩, Call.waitKeyRelease k,
          Call.handleOverlayKey ov k ⟨false, dur⟩],
         (beh ov).handleOverlayKey k ⟨false, dur⟩) := by
  unfold Coordinator.keyPressCallback
  simp [hov, hp]

lemma kpc_no_owner {k : KeyID} {dur : Dur}
    (hov : c.getActiveOverlay beh = none) (ho : c.keyOwners k = none) :
    c.keyPressCallback beh k dur = ([], none) := by
  unfold Coordinator.keyPressCallback
  simp [hov, ho]

lemma kpc_owner_failed {k : KeyID} {dur : Dur} {o : ModuleId}
    (hov : c.getActiveOverlay beh = none) (ho : c.keyOwners k = some o)
    (hfo : c.failedModules o = true) :
    c.keyPressCallback beh k dur = ([], none) := by
  unfold Coordinator.keyPressCallback
  simp [hov, ho, hfo]

lemma kpc_owner_err {k : KeyID} {dur : Dur} {o : ModuleId} {e : Err}
    (hov : c.getActiveOverlay beh = none) (ho : c.keyOwners k = some o)
    (hfo : c.failedModules o = false)
    (hp : (beh o).handleKey k ⟨true, 0⟩ = some e) :
    c.keyPressCallback beh k dur = ([Call.handleKey o k ⟨true, 0⟩], some e) := by
  unfold Coordinator.keyPressCallback
  simp [hov, ho, hfo, hp]

lemma kpc_owner_ok {k : KeyID} {dur : Dur} {o : ModuleId}
    (hov : c.getActiveOverlay beh = none) (ho : c.keyOwners k = some o)
    (hfo : c.failedModules o = false)
    (hp : (beh o).handleKey k ⟨true, 0⟩ = none) :
    c.keyPressCallback beh k dur
      = ([Call.handleKey o k ⟨true, 0⟩, Call.waitKeyRelease k,
          Call.handleKey o k ⟨false, dur⟩],
         (beh o).handleKey k ⟨false, dur⟩) := by
  unfold Coordinator.keyPressCallback
  simp [hov, ho, hfo, hp]

lemma drc_no_owner {d : DialID} {delta : Int}
    (ho : c.dialOwners d = none) :
    c.dialRotateCallback beh d delta = ([], none) := by
  unfold Coordinator.dialRotateCallback
  simp [ho]

lemma drc_owner_failed {d : DialID} {delta : Int} {m : ModuleId}
    (ho : c.dialOwners d = some m) (hfm : c.failedModules m = true) :
    c.dialRotateCallback beh d delta = ([], none) := by
  unfold Coordinator.dialRotateCallback
  simp [ho, hfm]

lemma drc_owner_ok {d : DialID} {delta : Int} {m : ModuleId}
    (ho : c.dialOwners d = some m) (hfm : c.failedModules m = false) :
    c.dialRotateCallback beh d delta
      = ([Call.handleDial m d ⟨.rotate, delta, 0⟩],
         (beh m).handleDial d ⟨.rotate, delta, 0⟩) := by
  unfold Coordinator.dialRotateCallback
  simp [ho, hfm]

lemma dsc_no_owner {d : DialID} {dur : Dur}
    (ho : c.dialOwners d = none) :
    c.dialSwitchCallback beh d dur = ([], none) := by
  unfold Coordinator.dialSwitchCallback
  simp [ho]

lemma dsc_owner_failed {d : DialID} {dur : Dur} {m : ModuleId}
    (ho : c.dialOwners d = some m) (hfm : c.failedModules m = true) :
    c.dialSwitchCallback beh d dur = ([], none) := by
  unfold Coordinator.dialSwitchCallback
  simp [ho, hfm]

lemma dsc_owner_err {d : DialID} {dur : Dur} {m : ModuleId} {e : Err}
    (ho : c.dialOwners d = some m) (hfm : c.failedModules m = false)
    (hp : (beh m).handleDial d ⟨.press, 0, 0⟩ = some e) :
    c.dialSwitchCallback beh d dur
      = ([Call.handleDial m d ⟨.press, 0, 0⟩], some e) := by
  unfold Coordinator.dialSwitchCallback
  simp [ho, hfm, hp]

lemma dsc_owner_ok {d : DialID} {dur : Dur} {m : ModuleId}
    (ho : c.dialOwners d = some m) (hfm : c.failedModules m = false)
    (hp : (beh m).handleDial d ⟨.press, 0, 0⟩ = none) :
    c.dialSwitchCallback beh d dur
      = ([Call.handleDial m d ⟨.press, 0, 0⟩, Call.waitDialRelease d,
          Call.handleDial m d ⟨.release, 0, dur⟩],
         (beh m).handleDial d ⟨.release, 0, dur⟩) := by
  unfold Coordinator.dialSwitchCallback
  simp [ho, hfm, hp]

lemma route_strip_some {e : TouchStripEvent} {m : ModuleId}
    (ht : stripTarget c = some m) :
    c.routeStripEvent beh e
      = ([Call.handleStripTouch m e], (beh m).handleStripTouch e) := by
  unfold Coordinator.routeStripEvent
  simp [ht]

lemma route_strip_none {e : TouchStripEvent}
    (ht : stripTarget c = none) :
    c.routeStripEvent beh e = ([], none) := by
  unfold Coordinator.routeStripEvent
  simp [ht]

lemma stc_overlay {long : Bool} {p : Point} {ov : ModuleId}
    (hov : c.getActiveOverlay beh = some ov) :
    c.stripTapCallback beh long p
      = ([Call.handleOverlayStripTouch ov (touchStripEventFromTap long p)],
         (beh ov).handleOverlayStripTouch (touchStripEventFromTap long p)) := by
  unfold Coordinator.stripTapCallback
  simp [hov]

lemma stc_no_overlay {long : Bool} {p : Point}
    (hov : c.getActiveOverlay beh = none) :
    c.stripTapCallback beh long p
      = c.routeStripEvent beh (touchStripEventFromTap long p) := by
  unfold Coordinator.stripTapCallback
  simp [hov]

lemma ssc_overlay {o d : Point} {ov : ModuleId}
    (hov : c.getActiveOverlay beh = some ov) :
    c.stripSwipeCallback beh o d
      = ([Call.handleOverlayStripTouch ov (touchStripEventFromSwipe o d)],
         (beh ov).handleOverlayStripTouch (touchStripEventFromSwipe o d)) := by
  unfold Coordinator.stripSwipeCallback
  simp [hov]

lemma ssc_no_overlay {o d : Point}
    (hov : c.getActiveOverlay beh = none) :
    c.stripSwipeCallback beh o d
      = c.routeStripEvent beh (touchStripEventFromSwipe o d) := by
  unfold Coordinator.stripSwipeCallback
  simp [hov]

lemma renderKeys_overlay {dev : Device} {ov : ModuleId}
    (hov : c.getActiveOverlay beh = some ov) :
    c.renderKeys dev beh
      = ({ c with overlayWasActive := true },
         Call.renderOverlayKeysQuery ov :: keyWrites (beh ov).renderOverlayKeys) := by
  unfold Coordinator.renderKeys
  simp [hov]

lemma renderKeys_transition {dev : Device}
    (hov : c.getActiveOverlay beh = none) (hwas : c.overlayWasActive = true) :
    c.renderKeys dev beh
      = ({ c with overlayWasActive := false },
         c.clearAllKeys dev ++ normalKeyRender c beh c.modules) := by
  unfold Coordinator.renderKeys
  simp [hov, hwas]

lemma renderKeys_normal {dev : Device}
    (hov : c.getActiveOverlay beh = none) (hwas : c.overlayWasActive = false) :
    c.renderKeys dev beh = (c, normalKeyRender c beh c.modules) := by
  unfold Coordinator.renderKeys
  simp [hov, hwas]

end BranchEquations

/-! ## Claim C10: RegisterModule never errors -/

/-- Claim C10: `RegisterModule` returns `nil` for every module and every
resource grant — including grants whose KeyIDs or DialIDs are already owned
by a previously registered module, and repeated registration of the same
module — so its error return value carries no information. -/
theorem c10_register_never_errors (c : Coordinator) (m : ModuleId)
    (res : Resources) : (c.registerModule m res).2 = none := rfl

/-! ## Claim C7: Stop discards module Stop errors -/

/-- A coordinator with one registered module, used to exercise `Stop`. -/
def c7cState : Coordinator :=
  { Coordinator.new with modules := [0] }

/-- A behavior whose `Stop` returns error 7. -/
def c7cBeh : ModuleId → Behavior :=
  fun _ => { inertBehavior with stopRes := some 7 }

/-- Claim C7 counterexample: with one registered module whose `Stop` returns
error 7, `Coordinator.Stop` still calls the module's `Stop` but returns `nil`
— the module's error is discarded, not propagated to the caller. -/
theorem c7_counterexample :
    (c7cBeh 0).stopRes = some 7
      ∧ Call.stopCall 0 ∈ (c7cState.stop c7cBeh).1
      ∧ (c7cState.stop c7cBeh).2 = none := by
  refine ⟨rfl, ?_, rfl⟩
  decide

/-- Claim C7 (amended): during `Coordinator.Stop` every registered module's
`Stop` is invoked in registration order regardless of failure status and of
the errors modules return (iteration never halts), but those individual
errors are discarded rather than propagated: `Stop` always returns `nil`. -/
theorem c7_stop_discards_errors (c : Coordinator) (beh : ModuleId → Behavior) :
    (c.stop beh).1
        = Call.cancelCtx :: (c.modules.map Call.stopCall ++ [Call.wgWait])
      ∧ (c.stop beh).2 = none :=
  ⟨rfl, rfl⟩

/-! ## Claim C6: Stop reaches every module and joins the render loop -/

lemma getLast?_append_singleton {α : Type} (xs : List α) (y : α) :
    (xs ++ [y]).getLast? = some y :=
  List.getLast?_concat xs

/-- What claim C6 asserts of `Stop` and the render loop: the `Stop` trace
cancels, then calls `Stop` on every registered module in registration order
with no failed-module filter, and its final action is the wait-group join;
the render loop's final action is the matching wait-group signal, emitted
exactly when the loop exits. -/
def stopJoinProp (c : Coordinator) (beh : ModuleId → Behavior) (dev : Device)
    (ticks : List (ModuleId → Behavior)) : Prop :=
  ((c.stop beh).1
      = Call.cancelCtx :: (c.modules.map Call.stopCall ++ [Call.wgWait]))
    ∧ (∀ m, m ∈ c.modules → Call.stopCall m ∈ (c.stop beh).1)
    ∧ ((c.stop beh).1.getLast? = some Call.wgWait)
    ∧ ((c.renderLoop dev ticks).2.getLast? = some Call.wgDone)

/-- Claim C6: `Stop` invokes the `Stop` method of every registered module,
in registration order, including modules marked failed at initialization
(the stop loop applies no failed filter), and `Stop` returns only after the
render loop's concurrent task has exited: its last action is the wait-group
join, and the render loop's exit signal `wg.Done` is the loop trace's last
action, whatever behaviors the ticks observed. -/
theorem c6_stop_all_modules_and_join (c : Coordinator)
    (beh : ModuleId → Behavior) (dev : Device)
    (ticks : List (ModuleId → Behavior)) : stopJoinProp c beh dev ticks := by
  refine ⟨rfl, ?_, ?_, ?_⟩
  · intro m hm
    show Call.stopCall m
        ∈ Call.cancelCtx :: (c.modules.map Call.stopCall ++ [Call.wgWait])
    exact List.mem_cons_of_mem _
      (List.mem_append_left _ (List.mem_map_of_mem Call.stopCall hm))
  · show (Call.cancelCtx
        :: (c.modules.map Call.stopCall ++ [Call.wgWait])).getLast?
      = some Call.wgWait
    rw [← List.cons_append]
    exact getLast?_append_singleton _ _
  · exact getLast?_append_singleton _ _

/-- A two-module coordinator used to instantiate the C6 statement. -/
def c6wState : Coordinator :=
  { Coordinator.new with
      modules := [0, 1]
      failedModules := fun m => m = 1 }

/-- Claim C6 witness: the stop/join property at a concrete two-module
coordinator whose second module is marked failed. -/
theorem c6_stop_all_modules_and_join_witness :
    stopJoinProp c6wState (fun _ => inertBehavior) ⟨some Rect.zero⟩
      [fun _ => inertBehavior] :=
  c6_stop_all_modules_and_join c6wState (fun _ => inertBehavior)
    ⟨some Rect.zero⟩ [fun _ => inertBehavior]

/-! ## Claim C1: overlay-first key routing -/

/-- The key-routing behavior while module `ov` is the active overlay: the
press event goes to `ov`'s `HandleOverlayKey`; when the press dispatch
returns no error, the coordinator blocks for the hardware release and also
dispatches the release event (carrying the reported hold duration) to `ov`;
when the press dispatch errors, that error is returned and the release is
not dispatched; in every case no module's `HandleKey` is invoked. -/
def overlayRoutingProp (c : Coordinator) (beh : ModuleId → Behavior)
    (k : KeyID) (dur : Dur) (ov : ModuleId) : Prop :=
  ((beh ov).handleOverlayKey k ⟨true, 0⟩ = none →
    (c.keyPressCallback beh k dur).1
      = [Call.handleOverlayKey ov k ⟨true, 0⟩, Call.waitKeyRelease k,
         Call.handleOverlayKey ov k ⟨false, dur⟩])
    ∧ (∀ e, (beh ov).handleOverlayKey k ⟨true, 0⟩ = some e →
        c.keyPressCallback beh k dur
          = ([Call.handleOverlayKey ov k ⟨true, 0⟩], some e))
    ∧ (∀ m kk ev, Call.handleKey m kk ev ∉ (c.keyPressCallback beh k dur).1)

/-- A two-module coordinator: module 0 provides an overlay, module 1 owns
key 3. -/
def c1cState : Coordinator :=
  { Coordinator.new with
      modules := [0, 1]
      keyOwners := fun k => if k = KeyID.key3 then some 1 else none }

/-- Module 0's overlay is active and its `HandleOverlayKey` errors on the
press event. -/
def c1cBeh : ModuleId → Behavior := fun m =>
  if m = 0 then
    { inertBehavior with
        providesOverlay := true
        overlayActive := true
        handleOverlayKey := fun _ e => if e.pressed then some 7 else none }
  else inertBehavior

/-- Claim C1 counterexample: module 0's overlay is active (it is the first
non-failed match), the press event for key 3 is dispatched to its
`HandleOverlayKey` — but because that dispatch returns an error, the release
event is never dispatched to it, contradicting the claim that both the press
and the subsequent release event are delivered. -/
theorem c1_counterexample :
    c1cState.getActiveOverlay c1cBeh = some 0
      ∧ Call.handleOverlayKey 0 KeyID.key3 ⟨true, 0⟩
          ∈ (c1cState.keyPressCallback c1cBeh KeyID.key3 5).1
      ∧ Call.handleOverlayKey 0 KeyID.key3 ⟨false, 5⟩
          ∉ (c1cState.keyPressCallback c1cBeh KeyID.key3 5).1 := by
  refine ⟨by decide, by decide, by decide⟩

/-- Claim C1 (amended): on a key-press callback for any of the 8 keys, if
some registered non-failed module's `IsOverlayActive` is true (scanning in
registration order, first match wins), the press event is dispatched to that
module's `HandleOverlayKey` and, provided that dispatch returns no error,
the release event with the device-reported hold duration is dispatched to it
as well (if the press dispatch errors, the error is propagated and the
release is not dispatched); the key's nominal owner's `HandleKey` is never
invoked in either case. -/
theorem c1_overlay_routing (c : Coordinator) (beh : ModuleId → Behavior)
    (k : KeyID) (dur : Dur) (ov : ModuleId)
    (hov : c.getActiveOverlay beh = some ov) :
    overlayRoutingProp c beh k dur ov := by
  cases hp : (beh ov).handleOverlayKey k ⟨true, 0⟩ with
  | none =>
      refine ⟨fun _ => ?_, fun e he => ?_, fun m kk ev => ?_⟩
      · rw [kpc_overlay_ok c beh hov hp]
      · rw [hp] at he
        exact Option.noConfusion he
      · rw [kpc_overlay_ok c beh hov hp]
        simp
  | some e0 =>
      refine ⟨fun hn => ?_, fun e he => ?_, fun m kk ev => ?_⟩
      · rw [hp] at hn
        exact Option.noConfusion hn
      · rw [hp] at he
        injection he with he
        subst he
        exact kpc_overlay_err c beh hov hp
      · rw [kpc_overlay_err c beh hov hp]
        simp

/-- Module 0 provides an always-active overlay whose handlers never error;
module 1 owns key 3. -/
def c1wBeh : ModuleId → Behavior := fun m =>
  if m = 0 then
    { inertBehavior with providesOverlay := true, overlayActive := true }
  else inertBehavior

/-- Claim C1 witness: the overlay-routing property instantiated at the
two-module coordinator with module 0's overlay active and key 5 pressed. -/
theorem c1_overlay_routing_witness :
    c1cState.getActiveOverlay c1wBeh = some 0
      ∧ overlayRoutingProp c1cState c1wBeh KeyID.key5 9 0 :=
  ⟨by decide, c1_overlay_routing c1cState c1wBeh KeyID.key5 9 0 (by decide)⟩

/-! ## Claim C5: press/release pairing with measured duration -/

/-- Two registrations in sequence, as performed by the setup code. -/
def registerTwo (c0 : Coordinator) (m1 : ModuleId) (r1 : Resources)
    (m2 : ModuleId) (r2 : Resources) : Coordinator :=
  ((c0.registerModule m1 r1).1.registerModule m2 r2).1

/-- What claim C3 asserts after registering `m1` with grant `r1` and then
`m2` with grant `r2`: whenever both grants contain key `k`, the key
ownership map assigns `k` to `m2` and key events on `k` are dispatched only
to `m2`'s handler, never to `m1`'s; and — independently — whenever both
grants contain dial `d`, the same holds for `d` and dial events.  The two
implications are separate, so grants overlapping in only a key (or only a
dial) are covered. -/
def lastWinsProp (c0 : Coordinator) (m1 m2 : ModuleId) (r1 r2 : Resources)
    (beh : ModuleId → Behavior) (k : KeyID) (d : DialID) (dur : Dur)
    (delta : Int) : Prop :=
  (k ∈ r1.keys → k ∈ r2.keys →
    ((registerTwo c0 m1 r1 m2 r2).keyOwners k = some m2)
      ∧ ((registerTwo c0 m1 r1 m2 r2).getActiveOverlay beh = none →
          (registerTwo c0 m1 r1 m2 r2).failedModules m2 = false →
          (Call.handleKey m2 k ⟨true, 0⟩
              ∈ ((registerTwo c0 m1 r1 m2 r2).keyPressCallback beh k dur).1
            ∧ (∀ e, Call.handleKey m1 k e
                ∉ ((registerTwo c0 m1 r1 m2 r2).keyPressCallback beh k dur).1))))
    ∧ (d ∈ r1.dials → d ∈ r2.dials →
        ((registerTwo c0 m1 r1 m2 r2).dialOwners d = some m2)
          ∧ ((registerTwo c0 m1 r1 m2 r2).failedModules m2 = false →
              (Call.handleDial m2 d ⟨.rotate, delta, 0⟩
                  ∈ ((registerTwo c0 m1 r1 m2 r2).dialRotateCallback beh d delta).1
                ∧ (∀ e, Call.handleDial m1 d e
                    ∉ ((registerTwo c0 m1 r1 m2 r2).dialRotateCallback beh d delta).1)
                ∧ Call.handleDial m2 d ⟨.press, 0, 0⟩
                    ∈ ((registerTwo c0 m1 r1 m2 r2).dialSwitchCallback beh d dur).1
                ∧ (∀ e, Call.handleDial m1 d e
                    ∉ ((registerTwo c0 m1 r1 m2 r2).dialSwitchCallback beh d dur).1))))

/-- Claim C3: for two distinct modules registered in sequence, whenever
their grants share a KeyID the ownership map assigns it to the
later-registered module and key events on it are dispatched only to the
later module's handler, never to the earlier module's; and independently
the same for any shared DialID — so overlap in only a key, only a dial, or
both is covered. -/
theorem c3_last_registration_wins (c0 : Coordinator) (m1 m2 : ModuleId)
    (r1 r2 : Resources) (beh : ModuleId → Behavior) (k : KeyID) (d : DialID)
    (dur : Dur) (delta : Int) (hne : m1 ≠ m2) :
    lastWinsProp c0 m1 m2 r1 r2 beh k d dur delta := by
  constructor
  · intro hk1 hk2
    have hko : (registerTwo c0 m1 r1 m2 r2).keyOwners k = some m2 := by
      show (r2.keys.foldl (fun f kk => updOwner f kk m2)
          ((c0.registerModule m1 r1).1.keyOwners)) k = some m2
      rw [foldl_updOwner_lookup]
      rw [if_pos hk2]
    refine ⟨hko, ?_⟩
    intro hov hfm
    cases hp : (beh m2).handleKey k ⟨true, 0⟩ with
    | none =>
        rw [kpc_owner_ok _ beh hov hko hfm hp]
        exact ⟨List.mem_cons_self _ _, fun e => by simp [hne]⟩
    | some e0 =>
        rw [kpc_owner_err _ beh hov hko hfm hp]
        exact ⟨List.mem_cons_self _ _, fun e => by simp [hne]⟩
  · intro hd1 hd2
    have hdo : (registerTwo c0 m1 r1 m2 r2).dialOwners d = some m2 := by
      show (r2.dials.foldl (fun f dd => updOwner f dd m2)
          ((c0.registerModule m1 r1).1.dialOwners)) d = some m2
      rw [foldl_updOwner_lookup]
      rw [if_pos hd2]
    refine ⟨hdo, ?_⟩
    intro hfm
    refine ⟨?_, ?_, ?_, ?_⟩
    · rw [drc_owner_ok _ beh hdo hfm]
      exact List.mem_cons_self _ _
    · intro e
      rw [drc_owner_ok _ beh hdo hfm]
      simp [hne]
    · cases hp : (beh m2).handleDial d ⟨.press, 0, 0⟩ with
      | none =>
          rw [dsc_owner_ok _ beh hdo hfm hp]
          exact List.mem_cons_self _ _
      | some e0 =>
          rw [dsc_owner_err _ beh hdo hfm hp]
          exact List.mem_cons_self _ _
    · intro e
      cases hp : (beh m2).handleDial d ⟨.press, 0, 0⟩ with
      | none =>
          rw [dsc_owner_ok _ beh hdo hfm hp]
          simp [hne]
      | some e0 =>
          rw [dsc_owner_err _ beh hdo hfm hp]
          simp [hne]

/-- The earlier module's grant: key 1 and dial 1. -/
def c3wRes1 : Resources := ⟨[KeyID.key1], Rect.zero, [DialID.dial1]⟩

/-- The later module's overlapping grant: keys 1 and 2, dial 1. -/
def c3wRes2 : Resources := ⟨[KeyID.key1, KeyID.key2], Rect.zero, [DialID.dial1]⟩

/-- Claim C3 witness: the last-wins property at a fresh coordinator with
module 0 granted key 1 / dial 1 and module 1 then granted the same key and
dial, so both the shared-key and the shared-dial implications are
exercised. -/
theorem c3_last_registration_wins_witness :
    ((0 : ModuleId) ≠ 1 ∧ KeyID.key1 ∈ c3wRes1.keys ∧ KeyID.key1 ∈ c3wRes2.keys
        ∧ DialID.dial1 ∈ c3wRes1.dials ∧ DialID.dial1 ∈ c3wRes2.dials)
      ∧ lastWinsProp Coordinator.new 0 1 c3wRes1 c3wRes2
          (fun _ => inertBehavior) KeyID.key1 DialID.dial1 3 2 :=
  ⟨⟨by decide, by decide, by decide, by decide, by decide⟩,
   c3_last_registration_wins Coordinator.new 0 1 c3wRes1 c3wRes2
     (fun _ => inertBehavior) KeyID.key1 DialID.dial1 3 2 (by decide)⟩

/-! ## Claim C4: clearing all keys on overlay dismissal -/

/-- What claim C4 asserts of a render tick that follows an overlay
dismissal: the key-render trace is exactly the 8 blank-image writes followed
by the normal per-module render pass (so every cleared write precedes every
module-specific write), the transition flag is reset, and — connecting the
flag to the previous tick — any tick that renders an active overlay sets the
flag. -/
def overlayClearProp (c : Coordinator) (dev : Device)
    (beh : ModuleId → Behavior) (r : Rect) : Prop :=
  ((c.renderKeys dev beh).2
      = (allKeys.map fun k => Call.setKeyImage k (Img.blank r))
        ++ normalKeyRender c beh c.modules)
    ∧ ((c.renderKeys dev beh).1.overlayWasActive = false)
    ∧ (∀ (c' : Coordinator) (beh' : ModuleId → Behavior) (ov : ModuleId),
        c'.getActiveOverlay beh' = some ov →
        (c'.renderKeys dev beh').1.overlayWasActive = true)

/-- Claim C4: on a render tick where no module's overlay is active but the
overlay-was-active flag is set (which is exactly the state an
overlay-rendering tick leaves behind), the coordinator pushes a blank image
to all 8 physical keys before any module-specific key image is pushed on
that tick, provided the device reports its key-image geometry. -/
theorem c4_overlay_dismissal_clears_first (c : Coordinator) (dev : Device)
    (beh : ModuleId → Behavior) (r : Rect)
    (hwas : c.overlayWasActive = true)
    (hnov : c.getActiveOverlay beh = none)
    (hrect : dev.keyImageRect = some r) :
    overlayClearProp c dev beh r := by
  refine ⟨?_, ?_, ?_⟩
  · rw [renderKeys_transition c beh hnov hwas]
    show c.clearAllKeys dev ++ normalKeyRender c beh c.modules = _
    congr 1
    simp [Coordinator.clearAllKeys, hrect]
  · rw [renderKeys_transition c beh hnov hwas]
  · intro c' beh' ov hov
    rw [renderKeys_overlay c' beh' hov]

/-- A one-module coordinator in the state left by an overlay tick. -/
def c4wState : Coordinator :=
  { Coordinator.new with
      modules := [0]
      overlayWasActive := true }

/-- The key-geometry rectangle of the 72x72 pixel keys. -/
def keyRect72 : Rect := ⟨0, 0, 72, 72⟩

/-- Claim C4 witness: the clear-before-render property at a concrete
coordinator whose overlay flag is set, with no overlay active and a device
reporting 72x72 key geometry. -/
theorem c4_overlay_dismissal_clears_first_witness :
    (c4wState.overlayWasActive = true
        ∧ c4wState.getActiveOverlay (fun _ => inertBehavior) = none
        ∧ Device.keyImageRect ⟨some keyRect72⟩ = some keyRect72)
      ∧ overlayClearProp c4wState ⟨some keyRect72⟩
          (fun _ => inertBehavior) keyRect72 :=
  ⟨⟨rfl, by decide, rfl⟩,
   c4_overlay_dismissal_clears_first c4wState ⟨some keyRect72⟩
     (fun _ => inertBehavior) keyRect72 rfl (by decide) rfl⟩

/-! ## Claim C8: strip-touch fallback routing -/

/-- What claim C8 asserts of strip events with no overlay active: if a
first non-failed strip-granted module exists, tap, long-tap and swipe
events all go to exactly that module's `HandleStripTouch` and to no other
module's; if none exists, the events are dropped with a `nil` error. -/
def stripFallbackProp (c : Coordinator) (beh : ModuleId → Behavior)
    (long : Bool) (p o q : Point) : Prop :=
  (∀ m, stripTarget c = some m →
      (m ∈ c.modules ∧ c.failedModules m = false
          ∧ (c.moduleResources m).hasStrip = true)
        ∧ c.stripTapCallback beh long p
            = ([Call.handleStripTouch m (touchStripEventFromTap long p)],
               (beh m).handleStripTouch (touchStripEventFromTap long p))
        ∧ c.stripSwipeCallback beh o q
            = ([Call.handleStripTouch m (touchStripEventFromSwipe o q)],
               (beh m).handleStripTouch (touchStripEventFromSwipe o q))
        ∧ (∀ m' e, m' ≠ m →
            Call.handleStripTouch m' e ∉ (c.stripTapCallback beh long p).1)
        ∧ (∀ m' e, m' ≠ m →
            Call.handleStripTouch m' e ∉ (c.stripSwipeCallback beh o q).1))
    ∧ (stripTarget c = none →
        c.stripTapCallback beh long p = ([], none)
          ∧ c.stripSwipeCallback beh o q = ([], none))

/-- Claim C8: every touch-strip event (tap, long-tap or swipe) arriving with
no overlay active is delivered to the `HandleStripTouch` of the first
non-failed module in registration order whose grant has a non-empty strip
rectangle, and to no other module; if no such module exists the event is
dropped without error. -/
theorem c8_strip_fallback_routing (c : Coordinator) (beh : ModuleId → Behavior)
    (long : Bool) (p o q : Point)
    (hnov : c.getActiveOverlay beh = none) :
    stripFallbackProp c beh long p o q := by
  constructor
  · intro m ht
    obtain ⟨hm, hfm, hs⟩ := stripTarget_spec ht
    refine ⟨⟨hm, hfm, hs⟩, ?_, ?_, ?_, ?_⟩
    · rw [stc_no_overlay c beh hnov, route_strip_some c beh ht]
    · rw [ssc_no_overlay c beh hnov, route_strip_some c beh ht]
    · intro m' e hne
      rw [stc_no_overlay c beh hnov, route_strip_some c beh ht]
      simp [hne]
    · intro m' e hne
      rw [ssc_no_overlay c beh hnov, route_strip_some c beh ht]
      simp [hne]
  · intro ht
    constructor
    · rw [stc_no_overlay c beh hnov, route_strip_none c beh ht]
    · rw [ssc_no_overlay c beh hnov, route_strip_none c beh ht]

/-- A coordinator with a strip-less module 0 and a strip-granted module 1. -/
def c8wState : Coordinator :=
  { Coordinator.new with
      modules := [0, 1]
      moduleResources := fun m =>
        if m = 1 then ⟨[], ⟨0, 0, 400, 100⟩, []⟩ else Resources.zero }

/-- Claim C8 witness: the fallback-routing property at a concrete two-module
coordinator where module 1 is the first (and only) strip-granted module. -/
theorem c8_strip_fallback_routing_witness :
    c8wState.getActiveOverlay (fun _ => inertBehavior) = none
      ∧ stripFallbackProp c8wState (fun _ => inertBehavior)
          false ⟨10, 5⟩ ⟨0, 0⟩ ⟨100, 0⟩ :=
  ⟨by decide,
   c8_strip_fallback_routing c8wState (fun _ => inertBehavior)
     false ⟨10, 5⟩ ⟨0, 0⟩ ⟨100, 0⟩ (by decide)⟩

/-! ## Claim C9: absent key images leave hardware untouched -/

/-- What claim C9 asserts of a steady-state (no overlay now, none on the
previous tick) render tick: every key image pushed comes from some
non-failed module's `RenderKeys` entry with a non-nil value, and a key for
which no non-failed module returns an image receives no device write, so
replaying the tick's trace leaves that key's hardware image unchanged. -/
def untouchedKeysProp (c : Coordinator) (beh : ModuleId → Behavior)
    (dev : Device) (k : KeyID) (st : KeyID → Option Img) : Prop :=
  (∀ kk img, Call.setKeyImage kk img ∈ (c.renderKeys dev beh).2 →
      ∃ m, m ∈ c.modules ∧ c.failedModules m = false
        ∧ (beh m).renderKeys kk = some img)
    ∧ ((∀ m, m ∈ c.modules → c.failedModules m = false →
          (beh m).renderKeys k = none) →
        applyCalls st (c.renderKeys dev beh).2 k = st k)

/-- Claim C9: during normal (non-overlay, non-transition) key rendering the
coordinator pushes only key images that some non-failed module's
`RenderKeys` map contains with a non-nil value; a key with no entry (or a
nil entry) from every module gets no device write on that tick, leaving its
hardware image as it was after the previous tick. -/
theorem c9_absent_keys_untouched (c : Coordinator) (beh : ModuleId → Behavior)
    (dev : Device) (k : KeyID) (st : KeyID → Option Img)
    (hnov : c.getActiveOverlay beh = none)
    (hwas : c.overlayWasActive = false) :
    untouchedKeysProp c beh dev k st := by
  have htr : (c.renderKeys dev beh).2 = normalKeyRender c beh c.modules := by
    rw [renderKeys_normal c beh hnov hwas]
  constructor
  · intro kk img h
    rw [htr] at h
    exact setKeyImage_mem_normalKeyRender h
  · intro hnone
    rw [htr]
    apply applyCalls_no_write
    intro img hmem
    obtain ⟨m, hm, hfm, hr⟩ := setKeyImage_mem_normalKeyRender hmem
    rw [hnone m hm hfm] at hr
    exact Option.noConfusion hr

/-- A one-module coordinator whose module renders an image only for key 1. -/
def c9wState : Coordinator :=
  { Coordinator.new with modules := [0] }

/-- A behavior rendering an opaque image for key 1 and nothing else. -/
def c9wBeh : ModuleId → Behavior := fun _ =>
  { inertBehavior with
      renderKeys := fun k => if k = KeyID.key1 then some (Img.pix 5) else none }

/-- Claim C9 witness: the untouched-keys property at a concrete one-module
coordinator, for key 2 (which no module renders). -/
theorem c9_absent_keys_untouched_witness :
    (c9wState.getActiveOverlay c9wBeh = none
        ∧ c9wState.overlayWasActive = false)
      ∧ untouchedKeysProp c9wState c9wBeh ⟨some keyRect72⟩ KeyID.key2
          (fun _ => some (Img.pix 1)) :=
  ⟨⟨by decide, rfl⟩,
   c9_absent_keys_untouched c9wState c9wBeh ⟨some keyRect72⟩ KeyID.key2
     (fun _ => some (Img.pix 1)) (by decide) rfl⟩

/-! ## Claim C2: failed modules are isolated, the rest run normally -/

lemma renderStrip_normal (c : Coordinator) (beh : ModuleId → Behavior)
    (hemp : c.stripRect.isEmpty = false)
    (hov : c.getActiveOverlay beh = none) :
    c.renderStrip beh
      = (stripComposite c beh c.modules (Img.blank c.stripRect)).2
        ++ [Call.setTouchStripImage
              (stripComposite c beh c.modules (Img.blank c.stripRect)).1] := by
  simp [Coordinator.renderStrip, hemp, hov]

lemma clearAllKeys_shape {c : Coordinator} {dev : Device} {x : Call}
    (h : x ∈ c.clearAllKeys dev) :
    ∃ k r, x = Call.setKeyImage k (Img.blank r) := by
  cases hr : dev.keyImageRect with
  | none => simp [Coordinator.clearAllKeys, hr] at h
  | some r =>
      simp only [Coordinator.clearAllKeys, hr, List.mem_map] at h
      obtain ⟨k, -, hk⟩ := h
      exact ⟨k, r, hk.symm⟩

/-- What claim C2 asserts of a coordinator whose module `f` is marked as
failed: `f` receives no `HandleKey`, `HandleDial`, `HandleStripTouch`,
`RenderKeys`, or `RenderStrip` call from any event callback or render pass,
while the remaining modules are still initialized (the init loop reaches
every registered module, marking exactly the erroring ones failed), still
rendered, and still routed to normally. -/
def failedIsolationProp (c : Coordinator) (beh : ModuleId → Behavior)
    (f : ModuleId) (dev : Device) : Prop :=
  (∀ k dur kk e, Call.handleKey f kk e ∉ (c.keyPressCallback beh k dur).1)
    ∧ (∀ d delta dd e,
        Call.handleDial f dd e ∉ (c.dialRotateCallback beh d delta).1)
    ∧ (∀ d dur dd e,
        Call.handleDial f dd e ∉ (c.dialSwitchCallback beh d dur).1)
    ∧ (∀ long p e,
        Call.handleStripTouch f e ∉ (c.stripTapCallback beh long p).1)
    ∧ (∀ o q e,
        Call.handleStripTouch f e ∉ (c.stripSwipeCallback beh o q).1)
    ∧ (Call.renderKeysQuery f ∉ (c.renderKeys dev beh).2)
    ∧ (Call.renderStripQuery f ∉ c.renderStrip beh)
    ∧ ((c.runInit beh).2 = c.modules.map Call.initCall)
    ∧ (∀ m, m ∈ c.modules → ((beh m).initRes).isSome = true →
        ((c.runInit beh).1).failedModules m = true)
    ∧ (∀ m, m ∈ c.modules → c.failedModules m = false →
        c.getActiveOverlay beh = none →
        Call.renderKeysQuery m ∈ (c.renderKeys dev beh).2)
    ∧ (∀ k dur m, c.getActiveOverlay beh = none → c.keyOwners k = some m →
        c.failedModules m = false →
        Call.handleKey m k ⟨true, 0⟩ ∈ (c.keyPressCallback beh k dur).1)

/-- Claim C2: a module `f` marked failed (as the init loop does for every
module whose `Init` errors) receives no further `RenderKeys`, `RenderStrip`,
`HandleKey`, `HandleDial`, or `HandleStripTouch` call from any coordinator
event callback or render pass, while `Init` is still attempted on every
registered module and the non-failed modules are rendered and routed to
normally. -/
theorem c2_failed_module_isolation (c : Coordinator)
    (beh : ModuleId → Behavior) (f : ModuleId) (dev : Device)
    (hf : c.failedModules f = true) :
    failedIsolationProp c beh f dev := by
  refine ⟨?_, ?_, ?_, ?_, ?_, ?_, ?_, rfl, ?_, ?_, ?_⟩
  · intro k dur kk e h
    cases hov : c.getActiveOverlay beh with
    | some ov =>
        cases hp : (beh ov).handleOverlayKey k ⟨true, 0⟩ with
        | some e0 =>
            rw [kpc_overlay_err c beh hov hp] at h
            simp at h
        | none =>
            rw [kpc_overlay_ok c beh hov hp] at h
            simp at h
    | none =>
        cases ho : c.keyOwners k with
        | none =>
            rw [kpc_no_owner c beh hov ho] at h
            simp at h
        | some o =>
            cases hfo : c.failedModules o with
            | true =>
                rw [kpc_owner_failed c beh hov ho hfo] at h
                simp at h
            | false =>
                cases hp : (beh o).handleKey k ⟨true, 0⟩ with
                | some e0 =>
                    rw [kpc_owner_err c beh hov ho hfo hp] at h
                    simp only [List.mem_singleton, Call.handleKey.injEq] at h
                    obtain ⟨rfl, -, -⟩ := h
                    rw [hf] at hfo
                    exact Bool.noConfusion hfo
                | none =>
                    rw [kpc_owner_ok c beh hov ho hfo hp] at h
                    have hfeq : f = o := by
                      rcases List.mem_cons.1 h with h1 | h1
                      · injection h1 with a b cc
                      · rcases List.mem_cons.1 h1 with h2 | h2
                        · exact Call.noConfusion h2
                        · rcases List.mem_cons.1 h2 with h3 | h3
                          · injection h3 with a b cc
                          · exact absurd h3 (List.not_mem_nil _)
                    subst hfeq
                    rw [hf] at hfo
                    exact Bool.noConfusion hfo
  · intro d delta dd e h
    cases ho : c.dialOwners d with
    | none =>
        rw [drc_no_owner c beh ho] at h
        simp at h
    | some o =>
        cases hfo : c.failedModules o with
        | true =>
            rw [drc_owner_failed c beh ho hfo] at h
            simp at h
        | false =>
            rw [drc_owner_ok c beh ho hfo] at h
            simp only [List.mem_singleton, Call.handleDial.injEq] at h
            obtain ⟨rfl, -, -⟩ := h
            rw [hf] at hfo
            exact Bool.noConfusion hfo
  · intro d dur dd e h
    cases ho : c.dialOwners d with
    | none =>
        rw [dsc_no_owner c beh ho] at h
        simp at h
    | some o =>
        cases hfo : c.failedModules o with
        | true =>
            rw [dsc_owner_failed c beh ho hfo] at h
            simp at h
        | false =>
            cases hp : (beh o).handleDial d ⟨.press, 0, 0⟩ with
            | some e0 =>
                rw [dsc_owner_err c beh ho hfo hp] at h
                simp only [List.mem_singleton, Call.handleDial.injEq] at h
                obtain ⟨rfl, -, -⟩ := h
                rw [hf] at hfo
                exact Bool.noConfusion hfo
            | none =>
                rw [dsc_owner_ok c beh ho hfo hp] at h
                have hfeq : f = o := by
                  rcases List.mem_cons.1 h with h1 | h1
                  · injection h1 with a b cc
                  · rcases List.mem_cons.1 h1 with h2 | h2
                    · exact Call.noConfusion h2
                    · rcases List.mem_cons.1 h2 with h3 | h3
                      · injection h3 with a b cc
                      · exact absurd h3 (List.not_mem_nil _)
                subst hfeq
                rw [hf] at hfo
                exact Bool.noConfusion hfo
  · intro long p e h
    cases hov : c.getActiveOverlay beh with
    | some ov =>
        rw [stc_overlay c beh hov] at h
        simp at h
    | none =>
        rw [stc_no_overlay c beh hov] at h
        cases ht : stripTarget c with
        | none =>
            rw [route_strip_none c beh ht] at h
            simp at h
        | some m =>
            rw [route_strip_some c beh ht] at h
            simp only [List.mem_singleton, Call.handleStripTouch.injEq] at h
            obtain ⟨rfl, -⟩ := h
            have := (stripTarget_spec ht).2.1
            rw [hf] at this
            exact Bool.noConfusion this
  · intro o q e h
    cases hov : c.getActiveOverlay beh with
    | some ov =>
        rw [ssc_overlay c beh hov] at h
        simp at h
    | none =>
        rw [ssc_no_overlay c beh hov] at h
        cases ht : stripTarget c with
        | none =>
            rw [route_strip_none c beh ht] at h
            simp at h
        | some m =>
            rw [route_strip_some c beh ht] at h
            simp only [List.mem_singleton, Call.handleStripTouch.injEq] at h
            obtain ⟨rfl, -⟩ := h
            have := (stripTarget_spec ht).2.1
            rw [hf] at this
            exact Bool.noConfusion this
  · intro h
    cases hov : c.getActiveOverlay beh with
    | some ov =>
        rw [renderKeys_overlay c beh hov] at h
        simp only [List.mem_cons, reduceCtorEq, false_or] at h
        obtain ⟨k, img, hk⟩ := keyWrites_shape h
        exact Call.noConfusion hk
    | none =>
        cases hwas : c.overlayWasActive with
        | true =>
            rw [renderKeys_transition c beh hov hwas] at h
            rcases List.mem_append.1 h with h | h
            · obtain ⟨k, r, hk⟩ := clearAllKeys_shape h
              exact Call.noConfusion hk
            · have := ((renderKeysQuery_mem_normalKeyRender c beh f
                  c.modules).1 h).2
              rw [hf] at this
              exact Bool.noConfusion this
        | false =>
            rw [renderKeys_normal c beh hov hwas] at h
            have := ((renderKeysQuery_mem_normalKeyRender c beh f
                c.modules).1 h).2
            rw [hf] at this
            exact Bool.noConfusion this
  · intro h
    by_cases hemp : c.stripRect.isEmpty = true
    · simp [Coordinator.renderStrip, hemp] at h
    · cases hov : c.getActiveOverlay beh with
      | some ov =>
          cases hoi : (beh ov).renderOverlayStrip with
          | some img => simp [Coordinator.renderStrip, hemp, hov, hoi] at h
          | none => simp [Coordinator.renderStrip, hemp, hov, hoi] at h
      | none =>
          rw [Bool.not_eq_true] at hemp
          rw [renderStrip_normal c beh hemp hov] at h
          rcases List.mem_append.1 h with h | h
          · exact renderStripQuery_not_mem_stripComposite c beh f hf
              c.modules _ h
          · rcases List.mem_cons.1 h with h1 | h1
            · exact Call.noConfusion h1
            · exact absurd h1 (List.not_mem_nil _)
  · intro m hm hsome
    show initFailures beh c.failedModules c.modules m = true
    exact (initFailures_spec beh c.modules c.failedModules m).2
      (Or.inl ⟨hm, hsome⟩)
  · intro m hm hfm hov
    cases hwas : c.overlayWasActive with
    | true =>
        rw [renderKeys_transition c beh hov hwas]
        show Call.renderKeysQuery m
            ∈ c.clearAllKeys dev ++ normalKeyRender c beh c.modules
        exact List.mem_append_right _
          ((renderKeysQuery_mem_normalKeyRender c beh m c.modules).2 ⟨hm, hfm⟩)
    | false =>
        rw [renderKeys_normal c beh hov hwas]
        exact (renderKeysQuery_mem_normalKeyRender c beh m c.modules).2
          ⟨hm, hfm⟩
  · intro k dur m hov ho hfm
    cases hp : (beh m).handleKey k ⟨true, 0⟩ with
    | some e =>
        rw [kpc_owner_err c beh hov ho hfm hp]
        exact List.mem_cons_self _ _
    | none =>
        rw [kpc_owner_ok c beh hov ho hfm hp]
        exact List.mem_cons_self _ _

/-- A two-module coordinator whose module 1 is marked failed. -/
def c2wState : Coordinator :=
  { Coordinator.new with
      modules := [0, 1]
      failedModules := fun m => m = 1 }

/-- Claim C2 witness: the failed-module isolation property at a concrete
two-module coordinator with module 1 failed. -/
theorem c2_failed_module_isolation_witness :
    c2wState.failedModules 1 = true
      ∧ failedIsolationProp c2wState (fun _ => inertBehavior) 1
          ⟨some keyRect72⟩ :=
  ⟨by decide,
   c2_failed_module_isolation c2wState (fun _ => inertBehavior) 1
     ⟨some keyRect72⟩ (by decide)⟩

end Gatolab
